import Mathlib

/-
Formal model of the backend functions of a chat application
(convex/conversations.tsx: conversation queries, group lifecycle
mutations, and the friend-request lifecycle), together with theorems
about their behaviour.

Modelling conventions:
- The document database is a record of tables (lists of rows) plus a
  counter nextId; every insert allocates the id nextId and increments
  the counter, mirroring the platform allocating a fresh document id.
- A JavaScript string that undergoes string operations (usernames,
  emails) is modelled as a list of characters (one entry per code
  point); strings that are only stored or compared for equality are
  modelled as Lean strings.
- A handler is a function from the authentication state, its arguments
  and the database to an exceptional result.  The platform runs each
  mutation as a transaction that is rolled back when the handler
  throws, so an error result carries no database: an erroring call
  writes nothing.
- try/catch blocks that log and rethrow a generic tagged error are
  modelled by wrapFail, which replaces any error of the body with the
  generic message, exactly as the catch clause does.
-/

/-- A JavaScript string, one entry per code point. -/
abbrev JStr := List Char

/-- A thrown JavaScript error: either a plain Error or a tagged
ConvexError carrying a user-facing message. -/
inductive JsError where
  | raw (msg : String)
  | convex (msg : String)
deriving DecidableEq, Repr

/-- Row of the users table. -/
structure User where
  id : Nat
  clerkId : String
  username : JStr
  email : JStr
deriving DecidableEq, Repr

/-- Row of the conversations table. -/
structure Conversation where
  id : Nat
  isGroup : Bool
  name : Option String := none
  imageUrl : Option String := none
  creatorId : Option Nat := none
  lastMessageId : Option Nat := none
deriving DecidableEq, Repr

/-- Row of the conversationMembers join table. -/
structure ConversationMember where
  id : Nat
  conversationId : Nat
  memberId : Nat
deriving DecidableEq, Repr

/-- Row of the messages table. -/
structure Message where
  id : Nat
  conversationId : Nat
  senderId : Nat
  type : String
  content : String
  creationTime : Nat
deriving DecidableEq, Repr

/-- Row of the requests table (a directed friend request). -/
structure Request where
  id : Nat
  senderId : Nat
  receiverId : Nat
  status : String
deriving DecidableEq, Repr

/-- Row of the friendships table (an undirected pair stored as two
ordered fields). -/
structure Friendship where
  id : Nat
  userId1 : Nat
  userId2 : Nat
  status : String
deriving DecidableEq, Repr

/-- The whole database, plus the fresh-id counter. -/
structure DB where
  users : List User := []
  conversations : List Conversation := []
  conversationMembers : List ConversationMember := []
  messages : List Message := []
  requests : List Request := []
  friendships : List Friendship := []
  nextId : Nat := 0
deriving DecidableEq, Repr

/-- The authenticated identity of the caller, as provided by the
authentication provider. -/
structure Identity where
  subject : String
  email : JStr
deriving DecidableEq, Repr

/-- Insert a conversation row (the caller passes the row built from
nextId) and bump the id counter. -/
def DB.addConversation (db : DB) (c : Conversation) : DB :=
  { db with conversations := db.conversations ++ [c], nextId := db.nextId + 1 }

/-- Insert a membership row and bump the id counter. -/
def DB.addMember (db : DB) (m : ConversationMember) : DB :=
  { db with conversationMembers := db.conversationMembers ++ [m], nextId := db.nextId + 1 }

/-- Insert a request row and bump the id counter. -/
def DB.addRequest (db : DB) (r : Request) : DB :=
  { db with requests := db.requests ++ [r], nextId := db.nextId + 1 }

/-- Insert a friendship row and bump the id counter. -/
def DB.addFriendship (db : DB) (f : Friendship) : DB :=
  { db with friendships := db.friendships ++ [f], nextId := db.nextId + 1 }

/-- db.delete on a membership document id. -/
def DB.deleteMember (db : DB) (mid : Nat) : DB :=
  { db with conversationMembers := db.conversationMembers.filter (fun m => m.id != mid) }

/-- db.delete on a message document id. -/
def DB.deleteMessage (db : DB) (mid : Nat) : DB :=
  { db with messages := db.messages.filter (fun m => m.id != mid) }

/-- db.delete on a request document id. -/
def DB.deleteRequest (db : DB) (rid : Nat) : DB :=
  { db with requests := db.requests.filter (fun r => r.id != rid) }

/-- db.delete on a conversation document id. -/
def DB.deleteConversation (db : DB) (cid : Nat) : DB :=
  { db with conversations := db.conversations.filter (fun c => c.id != cid) }

/-- db.patch on a conversation: apply the field update to the document
with the given id. -/
def DB.patchConversation (db : DB) (cid : Nat) (f : Conversation → Conversation) : DB :=
  { db with conversations := db.conversations.map (fun c => if c.id == cid then f c else c) }

/-- The .unique() combinator of the query builder: none when no row
matches, the row when exactly one matches, a thrown error when several
match. -/
def uniqueDoc (l : List α) : Except JsError (Option α) :=
  match l with
  | [] => Except.ok none
  | [a] => Except.ok (some a)
  | _ => Except.error (JsError.raw "unique: query returned more than one document")

/-- Modelled from the spec: getUserByClerkId lives in convex/_utils,
which is not part of the sources; per the spec it maps an
authenticated caller's external identity to the internal user record,
yielding nothing when no record matches. -/
def getUserByClerkId (db : DB) (subject : String) : Option User :=
  db.users.find? (fun u => u.clerkId == subject)

/-- The try/catch wrapper used by the group mutations: any error of
the body is caught, logged, and rethrown as a generic tagged error. -/
def wrapFail (msg : String) (r : Except JsError α) : Except JsError α :=
  match r with
  | Except.ok a => Except.ok a
  | Except.error _ => Except.error (JsError.convex msg)

/-- Well-formedness of a database state: every stored or referenced id
was produced by an earlier insert (so is below the counter), and
document ids are unique per table. -/
def DB.WF (db : DB) : Prop :=
  (∀ u ∈ db.users, u.id < db.nextId) ∧
  (∀ c ∈ db.conversations, c.id < db.nextId) ∧
  (∀ m ∈ db.conversationMembers,
      m.id < db.nextId ∧ m.conversationId < db.nextId ∧ m.memberId < db.nextId) ∧
  (∀ x ∈ db.messages, x.id < db.nextId ∧ x.conversationId < db.nextId) ∧
  (∀ r ∈ db.requests, r.id < db.nextId) ∧
  (∀ f ∈ db.friendships, f.id < db.nextId) ∧
  (db.users.map User.id).Nodup ∧
  (db.conversations.map Conversation.id).Nodup ∧
  (db.conversationMembers.map ConversationMember.id).Nodup ∧
  (db.requests.map Request.id).Nodup

instance (db : DB) : Decidable db.WF := by
  unfold DB.WF
  infer_instance

/-- JavaScript toLowerCase, on the ASCII range (the only range the
usernames and emails in play use). -/
def jsToLower (s : JStr) : JStr := s.map Char.toLower

/-- JavaScript String.prototype.trim. -/
def jsTrim (s : JStr) : JStr :=
  ((s.dropWhile Char.isWhitespace).reverse.dropWhile Char.isWhitespace).reverse

/-- Remove every non-overlapping occurrence of the pattern, scanning
left to right, with explicit fuel so the recursion is structural.  The
fuel is always at least the length of the remaining string. -/
def removeSeqFuel (pat : JStr) : Nat → JStr → JStr
  | 0, s => s
  | _ + 1, [] => []
  | fuel + 1, c :: rest =>
    if pat ≠ [] ∧ pat = (c :: rest).take pat.length then
      removeSeqFuel pat fuel ((c :: rest).drop pat.length)
    else
      c :: removeSeqFuel pat fuel rest

/-- A global regex replacement of a literal pattern by the empty
string, as in result.replace(pattern, empty). -/
def removeSeq (pat s : JStr) : JStr := removeSeqFuel pat s.length s

/-- The shield emoji (U+1F6E1). -/
def shieldChar : Char := Char.ofNat 0x1F6E1

/-- Variation selector 16 (U+FE0F), the second code point of the
emoji-presentation shield. -/
def vs16 : Char := Char.ofNat 0xFE0F

/-- The crown emoji (U+1F451). -/
def crownChar : Char := Char.ofNat 0x1F451

/-- The character-class removal of the big emoji regex in
getCleanUsername: the listed code-point ranges. -/
def isEmojiChar (c : Char) : Bool :=
  let n := c.toNat
  (0x1F600 ≤ n && n ≤ 0x1F6FF) || (0x2600 ≤ n && n ≤ 0x26FF) ||
  (0x2700 ≤ n && n ≤ 0x27BF) || (0x1F900 ≤ n && n ≤ 0x1F9FF) ||
  (0x1F300 ≤ n && n ≤ 0x1F5FF) || (0x1F680 ≤ n && n ≤ 0x1F6FF) ||
  (0x1F1E0 ≤ n && n ≤ 0x1F1FF)

/-- getCleanUsername from createByUsername: strip the decorated
shield (with and without variation selector) and crown sequences,
strip the emoji ranges, then trim and lowercase. -/
def getCleanUsername (text : JStr) : JStr :=
  let r := removeSeq [shieldChar, vs16] text
  let r := removeSeq [shieldChar] r
  let r := removeSeq [crownChar] r
  let r := r.filter (fun c => !isEmojiChar c)
  jsToLower (jsTrim r)

/-- The test of the username regex, one character class over the whole
input: letters, digits, underscore, period, hyphen, nonempty. -/
def usernameOk (s : JStr) : Bool :=
  !s.isEmpty && s.all (fun c => c.isAlphanum || c == '_' || c == '.' || c == '-')

/-- The matching predicate of the receiver scan in createByUsername:
an exact case-insensitive match, a match against the input with a
decorative shield or crown suffix appended, or a match after cleaning
the stored username. -/
def matchesUsername (input stored : JStr) : Bool :=
  let normalizedInput := jsToLower input
  jsToLower stored == normalizedInput ||
  jsToLower stored == normalizedInput ++ [shieldChar, vs16] ||
  jsToLower stored == normalizedInput ++ [shieldChar] ||
  jsToLower stored == normalizedInput ++ [crownChar] ||
  getCleanUsername stored == normalizedInput

/-- A conversation row together with the lastMessageTimestamp the get
query attaches to it (zero when there is no fetchable last message). -/
structure ConvWithTs where
  conversation : Conversation
  lastMessageTimestamp : Nat
deriving DecidableEq, Repr

/-- The last-message preview: content mapped through getMessageContent
and the username of the sender. -/
structure LastMessagePreview where
  content : String
  sender : JStr
deriving DecidableEq, Repr

/-- One item of the conversations.get result: the conversation, the
counterpart for a direct conversation, the preview of the last
message, and the member usernames for a group. -/
structure ConversationDetails where
  conversation : ConvWithTs
  otherMember : Option User := none
  lastMessage : Option LastMessagePreview := none
  groupMembers : Option (List JStr) := none
deriving DecidableEq, Repr

/-- getMessageContent: text messages show their content, images and
other attachment types show a fixed placeholder. -/
def getMessageContent (type : String) (content : String) : String :=
  match type with
  | "text" => content
  | "image" => "has sent an image."
  | _ => "has sent a document."

/-- getLastMessageDetails: fetch the message and its sender, degrading
to nothing when either is missing. -/
def getLastMessageDetails (db : DB) (mid : Option Nat) : Option LastMessagePreview :=
  match mid with
  | none => none
  | some m =>
    match db.messages.find? (fun x => x.id == m) with
    | none => none
    | some msg =>
      match db.users.find? (fun u => u.id == msg.senderId) with
      | none => none
      | some sender =>
        some { content := getMessageContent msg.type msg.content, sender := sender.username }

/-- The first phase of conversations.get: the caller's membership rows
are fetched and each is resolved to its conversation, decorated with
the creation time of the last message (zero when absent or not
fetchable); unresolvable memberships degrade to nothing. -/
def memberConversations (db : DB) (uid : Nat) : List ConvWithTs :=
  (db.conversationMembers.filter (fun m => m.memberId == uid)).filterMap (fun m =>
    match db.conversations.find? (fun c => c.id == m.conversationId) with
    | none => none
    | some c =>
      let ts :=
        match c.lastMessageId with
        | none => 0
        | some lm =>
          match db.messages.find? (fun x => x.id == lm) with
          | none => 0
          | some msg => msg.creationTime
      some { conversation := c, lastMessageTimestamp := ts })

/-- The comparison function of the sort call, as a boolean relation:
the comparator subtracts timestamps so that larger timestamps come
first. -/
def tsLe (a b : ConvWithTs) : Bool :=
  decide (b.lastMessageTimestamp ≤ a.lastMessageTimestamp)

/-- The second phase of conversations.get: the stable sort of the
decorated conversations by last-message timestamp, descending. -/
def sortedConversations (db : DB) (uid : Nat) : List ConvWithTs :=
  (memberConversations db uid).mergeSort tsLe

/-- The third phase of conversations.get, for one conversation: fetch
all memberships; for a group collect the member usernames (skipping
missing members and empty usernames, as the JS falsy check does); for
a direct conversation resolve the single counterpart, degrading to
nothing when there is none. -/
def conversationDetails (db : DB) (uid : Nat) (cw : ConvWithTs) : Option ConversationDetails :=
  let memberships := db.conversationMembers.filter (fun m => m.conversationId == cw.conversation.id)
  let lastMessage := getLastMessageDetails db cw.conversation.lastMessageId
  if cw.conversation.isGroup then
    let groupMembers := memberships.filterMap (fun m =>
      match db.users.find? (fun u => u.id == m.memberId) with
      | none => none
      | some u => if u.username.isEmpty then none else some u.username)
    some { conversation := cw, lastMessage := lastMessage, groupMembers := some groupMembers }
  else
    match memberships.filter (fun m => m.memberId != uid) with
    | [] => none
    | om :: _ =>
      match db.users.find? (fun u => u.id == om.memberId) with
      | none => none
      | some other =>
        some { conversation := cw, otherMember := some other, lastMessage := lastMessage }

/-- The body of conversations.get inside the top-level try: require an
identity and a user record, then run the three phases. -/
def conversationsGetInner (auth : Option Identity) (db : DB) :
    Except JsError (List ConversationDetails) := do
  let identity ← match auth with
    | none => Except.error (JsError.raw "Unauthorized")
    | some i => pure i
  let currentUser ← match getUserByClerkId db identity.subject with
    | none => Except.error (JsError.convex "User not found")
    | some u => pure u
  pure ((sortedConversations db currentUser.id).filterMap (conversationDetails db currentUser.id))

/-- conversations.get: the top-level catch turns any error into an
ordinary empty-list result. -/
def conversationsGet (auth : Option Identity) (db : DB) :
    Except JsError (List ConversationDetails) :=
  match conversationsGetInner auth db with
  | Except.ok l => Except.ok l
  | Except.error _ => Except.ok []

/-- The list conversations.get answers with (it never errors). -/
def conversationsGetResult (auth : Option Identity) (db : DB) : List ConversationDetails :=
  match conversationsGet auth db with
  | Except.ok l => l
  | Except.error _ => []

/-- The list the sort call of conversations.get runs on, before
sorting (filteredConversations in the source). -/
def filteredConversationsOf (auth : Option Identity) (db : DB) : List ConvWithTs :=
  match auth with
  | none => []
  | some identity =>
    match getUserByClerkId db identity.subject with
    | none => []
    | some u => memberConversations db u.id

/-- conversations.createGroup: insert the group conversation, a
membership for the creator and one per listed member; any error is
rethrown as the generic failure. -/
def createGroup (auth : Option Identity) (name : String) (memberIds : List Nat) (db : DB) :
    Except JsError (Nat × DB) :=
  wrapFail "Failed to create group" (do
    let identity ← match auth with
      | none => Except.error (JsError.raw "Unauthorized")
      | some i => pure i
    let currentUser ← match getUserByClerkId db identity.subject with
      | none => Except.error (JsError.convex "User not found")
      | some u => pure u
    let conversationId := db.nextId
    let db := db.addConversation
      { id := conversationId, isGroup := true, name := some name, creatorId := some currentUser.id }
    let db := db.addMember
      { id := db.nextId, conversationId := conversationId, memberId := currentUser.id }
    let db := memberIds.foldl
      (fun d mid => d.addMember { id := d.nextId, conversationId := conversationId, memberId := mid }) db
    pure (conversationId, db))

/-- deleteGroupHandler: delete every membership of the conversation,
every message of the conversation, then the conversation itself. -/
def deleteGroupHandler (db : DB) (conversationId : Nat) : DB :=
  let members := db.conversationMembers.filter (fun m => m.conversationId == conversationId)
  let db := (members.map (fun m => m.id)).foldl DB.deleteMember db
  let messages := db.messages.filter (fun x => x.conversationId == conversationId)
  let db := (messages.map (fun x => x.id)).foldl DB.deleteMessage db
  db.deleteConversation conversationId

/-- conversations.leaveGroup: a member leaves; a creator who is the
sole member deletes the group, a creator with other members first
hands creatorship to the first other membership found; any error is
rethrown as the generic failure. -/
def leaveGroup (auth : Option Identity) (conversationId : Nat) (db : DB) :
    Except JsError (Bool × DB) :=
  wrapFail "Failed to leave group" (do
    let identity ← match auth with
      | none => Except.error (JsError.raw "Unauthorized")
      | some i => pure i
    let currentUser ← match getUserByClerkId db identity.subject with
      | none => Except.error (JsError.convex "User not found")
      | some u => pure u
    let conversation ← match db.conversations.find? (fun c => c.id == conversationId) with
      | none => Except.error (JsError.convex "Conversation not found")
      | some c => pure c
    if !conversation.isGroup then
      Except.error (JsError.convex "This is not a group conversation")
    else do
      let membershipOpt ← uniqueDoc (db.conversationMembers.filter
        (fun m => m.memberId == currentUser.id && m.conversationId == conversationId))
      let membership ← match membershipOpt with
        | none => Except.error (JsError.convex "You are not a member of this group")
        | some m => pure m
      let isCreator := conversation.creatorId == some currentUser.id
      if isCreator then
        let otherMembers := db.conversationMembers.filter
          (fun m => m.conversationId == conversationId && m.memberId != currentUser.id)
        match otherMembers with
        | [] => pure (true, deleteGroupHandler db conversationId)
        | o :: _ =>
          let db := db.patchConversation conversationId (fun c => { c with creatorId := some o.memberId })
          pure (true, db.deleteMember membership.id)
      else
        pure (true, db.deleteMember membership.id))

/-- conversations.deleteGroup: creator-only cascade deletion; any
error is rethrown as the generic failure. -/
def deleteGroup (auth : Option Identity) (conversationId : Nat) (db : DB) :
    Except JsError (Bool × DB) :=
  wrapFail "Failed to delete group" (do
    let identity ← match auth with
      | none => Except.error (JsError.raw "Unauthorized")
      | some i => pure i
    let currentUser ← match getUserByClerkId db identity.subject with
      | none => Except.error (JsError.convex "User not found")
      | some u => pure u
    let conversation ← match db.conversations.find? (fun c => c.id == conversationId) with
      | none => Except.error (JsError.convex "Conversation not found")
      | some c => pure c
    if !conversation.isGroup then
      Except.error (JsError.convex "This is not a group conversation")
    else if conversation.creatorId != some currentUser.id then
      Except.error (JsError.convex "Only the group creator can delete the group")
    else
      pure (true, deleteGroupHandler db conversationId))

/-- conversations.isGroupCreator: answers false instead of throwing on
every failure, true exactly when the stored creator is the caller. -/
def isGroupCreator (auth : Option Identity) (conversationId : Nat) (db : DB) :
    Except JsError Bool :=
  match auth with
  | none => Except.ok false
  | some identity =>
    match getUserByClerkId db identity.subject with
    | none => Except.ok false
    | some currentUser =>
      match db.conversations.find? (fun c => c.id == conversationId) with
      | none => Except.ok false
      | some conversation =>
        if !conversation.isGroup then Except.ok false
        else Except.ok (conversation.creatorId == some currentUser.id)

/-- conversations.createGroupChat: like createGroup but checks each
listed member exists before inserting its membership, and throws its
errors directly (no catch wrapper). -/
def createGroupChat (auth : Option Identity) (name : String) (memberIds : List Nat)
    (imageUrl : Option String) (db : DB) : Except JsError (Nat × DB) := do
  let identity ← match auth with
    | none => Except.error (JsError.convex "Unauthorized")
    | some i => pure i
  let currentUser ← match getUserByClerkId db identity.subject with
    | none => Except.error (JsError.convex "User not found")
    | some u => pure u
  let conversationId := db.nextId
  let db := db.addConversation
    { id := conversationId, isGroup := true, name := some name,
      creatorId := some currentUser.id, imageUrl := imageUrl }
  let db := db.addMember
    { id := db.nextId, conversationId := conversationId, memberId := currentUser.id }
  let db := memberIds.foldl
    (fun d mid =>
      match d.users.find? (fun u => u.id == mid) with
      | none => d
      | some member => d.addMember { id := d.nextId, conversationId := conversationId, memberId := member.id })
    db
  pure (conversationId, db)

/-- conversations.updateGroupName: creator-only rename; any error is
rethrown as the generic failure. -/
def updateGroupName (auth : Option Identity) (conversationId : Nat) (name : String) (db : DB) :
    Except JsError (Bool × DB) :=
  wrapFail "Failed to update group name" (do
    let identity ← match auth with
      | none => Except.error (JsError.raw "Unauthorized")
      | some i => pure i
    let currentUser ← match getUserByClerkId db identity.subject with
      | none => Except.error (JsError.convex "User not found")
      | some u => pure u
    let conversation ← match db.conversations.find? (fun c => c.id == conversationId) with
      | none => Except.error (JsError.convex "Conversation not found")
      | some c => pure c
    if !conversation.isGroup then
      Except.error (JsError.convex "This is not a group conversation")
    else if conversation.creatorId != some currentUser.id then
      Except.error (JsError.convex "Only the group creator can update the group name")
    else
      pure (true, db.patchConversation conversationId (fun c => { c with name := some name })))

/-- conversations.updateGroupImage: creator-only image change; any
error is rethrown as the generic failure. -/
def updateGroupImage (auth : Option Identity) (conversationId : Nat) (imageUrl : String) (db : DB) :
    Except JsError (Bool × DB) :=
  wrapFail "Failed to update group image" (do
    let identity ← match auth with
      | none => Except.error (JsError.raw "Unauthorized")
      | some i => pure i
    let currentUser ← match getUserByClerkId db identity.subject with
      | none => Except.error (JsError.convex "User not found")
      | some u => pure u
    let conversation ← match db.conversations.find? (fun c => c.id == conversationId) with
      | none => Except.error (JsError.convex "Conversation not found")
      | some c => pure c
    if !conversation.isGroup then
      Except.error (JsError.convex "This is not a group conversation")
    else if conversation.creatorId != some currentUser.id then
      Except.error (JsError.convex "Only the group creator can update the group image")
    else
      pure (true, db.patchConversation conversationId (fun c => { c with imageUrl := some imageUrl })))

/-- The insertion loop of addGroupMembers: walk the requested ids,
skipping unknown users and ids in the membership list computed before
the loop, inserting and counting the rest. -/
def addMembersLoop (cid : Nat) (preIds : List Nat) : List Nat → DB × Nat → DB × Nat
  | [], acc => acc
  | mid :: rest, (db, count) =>
    match db.users.find? (fun u => u.id == mid) with
    | none => addMembersLoop cid preIds rest (db, count)
    | some member =>
      if preIds.contains member.id then addMembersLoop cid preIds rest (db, count)
      else addMembersLoop cid preIds rest
        (db.addMember { id := db.nextId, conversationId := cid, memberId := member.id }, count + 1)

/-- The ids the addGroupMembers loop actually inserts: ids that
resolve to a user and are not in the membership list computed before
the loop. -/
def eligibleIds (users : List User) (preIds : List Nat) (mids : List Nat) : List Nat :=
  mids.filter (fun mid => (users.find? (fun u => u.id == mid)).isSome && !preIds.contains mid)

/-- conversations.addGroupMembers: creator-only; inserts a membership
per eligible id and answers the count inserted; any error is rethrown
as the generic failure. -/
def addGroupMembers (auth : Option Identity) (conversationId : Nat) (memberIds : List Nat) (db : DB) :
    Except JsError ((Bool × Nat) × DB) :=
  wrapFail "Failed to add members to group" (do
    let identity ← match auth with
      | none => Except.error (JsError.raw "Unauthorized")
      | some i => pure i
    let currentUser ← match getUserByClerkId db identity.subject with
      | none => Except.error (JsError.convex "User not found")
      | some u => pure u
    let conversation ← match db.conversations.find? (fun c => c.id == conversationId) with
      | none => Except.error (JsError.convex "Conversation not found")
      | some c => pure c
    if !conversation.isGroup then
      Except.error (JsError.convex "This is not a group conversation")
    else if conversation.creatorId != some currentUser.id then
      Except.error (JsError.convex "Only the group creator can add members to the group")
    else do
      let existingMemberIds := (db.conversationMembers.filter
        (fun m => m.conversationId == conversationId)).map (fun m => m.memberId)
      let (db1, addedCount) := addMembersLoop conversationId existingMemberIds memberIds (db, 0)
      pure ((true, addedCount), db1))

/-- conversations.removeGroupMember: creator-only removal of one
member, refusing the creator as target; any error is rethrown as the
generic failure. -/
def removeGroupMember (auth : Option Identity) (conversationId : Nat) (memberId : Nat) (db : DB) :
    Except JsError (Bool × DB) :=
  wrapFail "Failed to remove member from group" (do
    let identity ← match auth with
      | none => Except.error (JsError.raw "Unauthorized")
      | some i => pure i
    let currentUser ← match getUserByClerkId db identity.subject with
      | none => Except.error (JsError.convex "User not found")
      | some u => pure u
    let conversation ← match db.conversations.find? (fun c => c.id == conversationId) with
      | none => Except.error (JsError.convex "Conversation not found")
      | some c => pure c
    if !conversation.isGroup then
      Except.error (JsError.convex "This is not a group conversation")
    else if conversation.creatorId != some currentUser.id then
      Except.error (JsError.convex "Only the group creator can remove members from the group")
    else do
      let memberToRemove ← match db.users.find? (fun u => u.id == memberId) with
        | none => Except.error (JsError.convex "Member not found")
        | some m => pure m
      if some memberToRemove.id == conversation.creatorId then
        Except.error (JsError.convex "Cannot remove the group creator")
      else do
        let membershipOpt ← uniqueDoc (db.conversationMembers.filter
          (fun m => m.memberId == memberToRemove.id && m.conversationId == conversationId))
        let membership ← match membershipOpt with
          | none => Except.error (JsError.convex "This user is not a member of the group")
          | some m => pure m
        pure (true, db.deleteMember membership.id))

/-- requests.getAll: the caller's pending requests, each with the
sender attached when it resolves. -/
def requestsGetAll (auth : Option Identity) (db : DB) :
    Except JsError (List (Request × Option User)) := do
  let identity ← match auth with
    | none => Except.error (JsError.raw "Unauthorized")
    | some i => pure i
  let currentUser ← match getUserByClerkId db identity.subject with
    | none => Except.error (JsError.convex "User not found")
    | some u => pure u
  let requests := db.requests.filter
    (fun r => r.receiverId == currentUser.id && r.status == "pending")
  pure (requests.map (fun r => (r, db.users.find? (fun s => s.id == r.senderId))))

/-- requests.create (by email): guard empty input, self-targeting,
unknown receiver, an existing request in either direction and an
existing friendship in either direction, then insert the pending
request. -/
def requestsCreate (auth : Option Identity) (email : JStr) (db : DB) :
    Except JsError (Nat × DB) := do
  let identity ← match auth with
    | none => Except.error (JsError.convex "Unauthorized")
    | some i => pure i
  if (jsTrim email).isEmpty then
    Except.error (JsError.convex "Email cannot be empty")
  else if email == identity.email then
    Except.error (JsError.convex "Can't send a request to yourself")
  else do
    let currentUser ← match getUserByClerkId db identity.subject with
      | none => Except.error (JsError.convex "User not found")
      | some u => pure u
    let receiverOpt ← uniqueDoc (db.users.filter (fun u => u.email == email))
    let receiver ← match receiverOpt with
      | none => Except.error (JsError.convex "User could not be found")
      | some r => pure r
    let requestAlreadySent ← uniqueDoc (db.requests.filter
      (fun r => r.senderId == currentUser.id && r.receiverId == receiver.id))
    if requestAlreadySent.isSome then
      Except.error (JsError.convex "Request already sent")
    else do
      let requestAlreadyReceived ← uniqueDoc (db.requests.filter
        (fun r => r.senderId == receiver.id && r.receiverId == currentUser.id))
      if requestAlreadyReceived.isSome then
        Except.error (JsError.convex "This user has already sent you a request")
      else do
        let existingFriendship1 ← uniqueDoc (db.friendships.filter
          (fun f => f.userId1 == currentUser.id && f.userId2 == receiver.id))
        let existingFriendship2 ← uniqueDoc (db.friendships.filter
          (fun f => f.userId1 == receiver.id && f.userId2 == currentUser.id))
        if existingFriendship1.isSome || existingFriendship2.isSome then
          Except.error (JsError.convex "You are already friends with this user")
        else do
          let rid := db.nextId
          let db := db.addRequest
            { id := rid, senderId := currentUser.id, receiverId := receiver.id, status := "pending" }
          pure (rid, db)

/-- requests.createByUsername: guard empty input and the username
character class, refuse self-targeting (also against the cleaned own
username), resolve the receiver by scanning all users with
matchesUsername, then the same duplicate-request and friendship guards
as requests.create, then insert the pending request. -/
def requestsCreateByUsername (auth : Option Identity) (username : JStr) (db : DB) :
    Except JsError (Nat × DB) := do
  let identity ← match auth with
    | none => Except.error (JsError.convex "Unauthorized")
    | some i => pure i
  let currentUser ← match getUserByClerkId db identity.subject with
    | none => Except.error (JsError.convex "User not found")
    | some u => pure u
  if (jsTrim username).isEmpty then
    Except.error (JsError.convex "Username cannot be empty")
  else if !usernameOk username then
    Except.error (JsError.convex
      "Username can only contain letters, numbers, underscores, periods, and hyphens")
  else do
    let normalizedInputUsername := jsToLower username
    if jsToLower currentUser.username == normalizedInputUsername
        || getCleanUsername currentUser.username == normalizedInputUsername then
      Except.error (JsError.convex "Can't send a request to yourself")
    else do
      let receiver ← match db.users.find? (fun u => matchesUsername username u.username) with
        | none => Except.error (JsError.convex "User with this username could not be found")
        | some r => pure r
      let requestAlreadySent ← uniqueDoc (db.requests.filter
        (fun r => r.senderId == currentUser.id && r.receiverId == receiver.id))
      if requestAlreadySent.isSome then
        Except.error (JsError.convex "Request already sent")
      else do
        let requestAlreadyReceived ← uniqueDoc (db.requests.filter
          (fun r => r.senderId == receiver.id && r.receiverId == currentUser.id))
        if requestAlreadyReceived.isSome then
          Except.error (JsError.convex "This user has already sent you a request")
        else do
          let existingFriendship1 ← uniqueDoc (db.friendships.filter
            (fun f => f.userId1 == currentUser.id && f.userId2 == receiver.id))
          let existingFriendship2 ← uniqueDoc (db.friendships.filter
            (fun f => f.userId1 == receiver.id && f.userId2 == currentUser.id))
          if existingFriendship1.isSome || existingFriendship2.isSome then
            Except.error (JsError.convex "You are already friends with this user")
          else do
            let rid := db.nextId
            let db := db.addRequest
              { id := rid, senderId := currentUser.id, receiverId := receiver.id, status := "pending" }
            pure (rid, db)

/-- requests.deny: the receiver deletes the pending request. -/
def requestsDeny (auth : Option Identity) (reqId : Nat) (db : DB) :
    Except JsError (Unit × DB) := do
  let identity ← match auth with
    | none => Except.error (JsError.convex "Unauthorized")
    | some i => pure i
  let currentUser ← match getUserByClerkId db identity.subject with
    | none => Except.error (JsError.convex "User not found")
    | some u => pure u
  let request ← match db.requests.find? (fun r => r.id == reqId) with
    | none => Except.error (JsError.convex "Request not found")
    | some r => pure r
  if request.receiverId != currentUser.id then
    Except.error (JsError.convex "Request not found")
  else
    pure ((), db.deleteRequest reqId)

/-- requests.accept: the receiver accepts; a direct conversation, a
friendship and the two membership rows are inserted and the request is
deleted. -/
def requestsAccept (auth : Option Identity) (reqId : Nat) (db : DB) :
    Except JsError (Bool × DB) := do
  let identity ← match auth with
    | none => Except.error (JsError.convex "Unauthorized")
    | some i => pure i
  let currentUser ← match getUserByClerkId db identity.subject with
    | none => Except.error (JsError.convex "User not found")
    | some u => pure u
  let request ← match db.requests.find? (fun r => r.id == reqId) with
    | none => Except.error (JsError.convex "There was an error accepting this request")
    | some r =>
      if r.receiverId != currentUser.id then
        Except.error (JsError.convex "There was an error accepting this request")
      else pure r
  let conversationId := db.nextId
  let db := db.addConversation { id := conversationId, isGroup := false }
  let db := db.addFriendship
    { id := db.nextId, userId1 := currentUser.id, userId2 := request.senderId, status := "accepted" }
  let db := db.addMember
    { id := db.nextId, conversationId := conversationId, memberId := currentUser.id }
  let db := db.addMember
    { id := db.nextId, conversationId := conversationId, memberId := request.senderId }
  let db := db.deleteRequest request.id
  pure (true, db)

/-- Whether a handler call ended in a thrown error. -/
def failed : Except JsError α → Bool
  | Except.error _ => true
  | Except.ok _ => false

/-- Whether a friendship row records the unordered pair of the two
given users, in either field order. -/
def friendshipForPair (f : Friendship) (a b : Nat) : Bool :=
  (f.userId1 == a && f.userId2 == b) || (f.userId1 == b && f.userId2 == a)

/-- The (conversation, member) content of a membership row, forgetting
the document id. -/
def memberPair (m : ConversationMember) : Nat × Nat := (m.conversationId, m.memberId)

/-- Sample user: alice. -/
def userA : User := { id := 0, clerkId := "clerk_a", username := "alice".data, email := "a@x".data }

/-- Sample user: bob. -/
def userB : User := { id := 1, clerkId := "clerk_b", username := "bob".data, email := "b@x".data }

/-- Sample user: carol. -/
def userC : User := { id := 5, clerkId := "clerk_c", username := "carol".data, email := "c@x".data }

/-- Sample identity resolving to alice. -/
def idnA : Identity := { subject := "clerk_a", email := "a@x".data }

/-- Sample identity resolving to bob. -/
def idnB : Identity := { subject := "clerk_b", email := "b@x".data }

/-- Sample state with a pending request from alice to bob. -/
def dbRequest : DB :=
  { users := [userA, userB],
    requests := [{ id := 2, senderId := 0, receiverId := 1, status := "pending" }],
    nextId := 3 }

/-- Sample state with a group whose creator alice is the sole member. -/
def dbGroupSole : DB :=
  { users := [userA],
    conversations := [{ id := 1, isGroup := true, name := some "g", creatorId := some 0 }],
    conversationMembers := [{ id := 2, conversationId := 1, memberId := 0 }],
    nextId := 3 }

/-- Sample state with a group created by alice whose members are alice
and bob, and a third registered user carol outside the group. -/
def dbGroupAB : DB :=
  { users := [userA, userB, userC],
    conversations := [{ id := 2, isGroup := true, name := some "g", creatorId := some 0 }],
    conversationMembers :=
      [{ id := 3, conversationId := 2, memberId := 0 },
       { id := 4, conversationId := 2, memberId := 1 }],
    nextId := 6 }

/-- Sample identity resolving to carol. -/
def idnC : Identity := { subject := "clerk_c", email := "c@x".data }

/-- Sample user whose stored username carries a decorative crown. -/
def userD : User := { id := 7, clerkId := "clerk_d", username := "alice👑".data, email := "d@x".data }

/-- Sample user whose username differs from alice in its alphanumeric
part. -/
def userE : User := { id := 8, clerkId := "clerk_e", username := "alice2".data, email := "e@x".data }

/-- Sample state for the fuzzy username lookup: carol plus a user
stored as alice with a crown suffix. -/
def dbFuzzy : DB := { users := [userC, userD], nextId := 9 }

/-- Sample state where the only alice-like username is alice2. -/
def dbFuzzy2 : DB := { users := [userC, userE], nextId := 9 }

/-- Binding a thrown error short-circuits. -/
@[simp] theorem errBind (e : JsError) (f : α → Except JsError β) :
    (Except.error e >>= f : Except JsError β) = Except.error e := rfl

/-- Binding a normal result continues with it. -/
@[simp] theorem okBind (a : α) (f : α → Except JsError β) :
    (Except.ok a >>= f : Except JsError β) = f a := rfl

/-- A pure step of a handler is a normal result. -/
@[simp] theorem pureOk (a : α) : (pure a : Except JsError α) = Except.ok a := rfl

/-- C10: conversations.isGroupCreator never throws: it always answers
a boolean, answering false when the caller is unauthenticated, when
the caller's user record is missing, when the conversation does not
exist or is not a group, and answering true exactly when the stored
creatorId equals the caller's user id. -/
theorem isGroupCreator_total_spec (auth : Option Identity) (cid : Nat) (db : DB) :
    (∃ b : Bool, isGroupCreator auth cid db = Except.ok b)
    ∧ (auth = none → isGroupCreator auth cid db = Except.ok false)
    ∧ (isGroupCreator auth cid db = Except.ok true ↔
        ∃ idn u c, auth = some idn ∧ getUserByClerkId db idn.subject = some u
          ∧ db.conversations.find? (fun x => x.id == cid) = some c
          ∧ c.isGroup = true ∧ c.creatorId = some u.id) := by
  rcases auth with _ | idn
  · refine ⟨⟨false, rfl⟩, fun _ => rfl, ?_⟩
    constructor
    · intro h
      exact absurd h (by simp [isGroupCreator])
    · rintro ⟨idn', u', c', hidn, -⟩
      cases hidn
  · rcases hu : getUserByClerkId db idn.subject with _ | u
    · have hval : isGroupCreator (some idn) cid db = Except.ok false := by
        simp only [isGroupCreator, hu]
      rw [hval]
      refine ⟨⟨false, rfl⟩, by simp, ?_⟩
      constructor
      · intro h
        simp at h
      · rintro ⟨idn', u', c', hidn, hu', -⟩
        injection hidn with h0
        subst h0
        rw [hu] at hu'
        cases hu'
    · rcases hc : db.conversations.find? (fun x => x.id == cid) with _ | c
      · have hval : isGroupCreator (some idn) cid db = Except.ok false := by
          simp only [isGroupCreator, hu, hc]
        rw [hval]
        refine ⟨⟨false, rfl⟩, by simp, ?_⟩
        constructor
        · intro h
          simp at h
        · rintro ⟨idn', u', c', hidn, hu', hc', -⟩
          injection hidn with h0
          subst h0
          rw [hu, Option.some.injEq] at hu'
          subst hu'
          rw [hc] at hc'
          cases hc'
      · by_cases hg : c.isGroup
        · have hval : isGroupCreator (some idn) cid db = Except.ok (c.creatorId == some u.id) := by
            simp only [isGroupCreator, hu, hc, hg]
            simp
          rw [hval]
          refine ⟨⟨_, rfl⟩, by simp, ?_⟩
          constructor
          · intro h
            have hcr : c.creatorId = some u.id := by simpa [beq_iff_eq] using h
            exact ⟨idn, u, c, rfl, hu, hc, hg, hcr⟩
          · rintro ⟨idn', u', c', hidn, hu', hc', hg', hcr'⟩
            injection hidn with h0
            subst h0
            rw [hu, Option.some.injEq] at hu'
            subst hu'
            rw [hc, Option.some.injEq] at hc'
            subst hc'
            simp [hcr']
        · have hgf : c.isGroup = false := by simpa using hg
          have hval : isGroupCreator (some idn) cid db = Except.ok false := by
            simp only [isGroupCreator, hu, hc, hgf]
            simp
          rw [hval]
          refine ⟨⟨false, rfl⟩, by simp, ?_⟩
          constructor
          · intro h
            simp at h
          · rintro ⟨idn', u', c', hidn, hu', hc', hg', hcr'⟩
            injection hidn with h0
            subst h0
            rw [hu, Option.some.injEq] at hu'
            subst hu'
            rw [hc, Option.some.injEq] at hc'
            subst hc'
            rw [hgf] at hg'
            cases hg'

/-- C3 (counterexample): an unauthenticated call does not always end
in an error: conversations.isGroupCreator answers an ordinary false
and conversations.get answers an ordinary empty list. -/
theorem unauthenticated_not_uniform :
    failed (isGroupCreator none 0 ({ } : DB)) = false
    ∧ isGroupCreator none 0 ({ } : DB) = Except.ok false
    ∧ failed (conversationsGet none ({ } : DB)) = false
    ∧ conversationsGet none ({ } : DB) = Except.ok [] := by
  exact ⟨rfl, rfl, rfl, rfl⟩

/-- C3 (amended): with no authenticated identity every exposed
mutation and the request query end in an error, while the two
conversation queries degrade to normal safe defaults: conversations.get
answers the empty list and conversations.isGroupCreator answers
false. -/
theorem unauthenticated_calls (db : DB) (nm img : String) (cid mid rid : Nat)
    (mids : List Nat) (em un : JStr) :
    failed (createGroup none nm mids db) = true
    ∧ failed (createGroupChat none nm mids (some img) db) = true
    ∧ failed (leaveGroup none cid db) = true
    ∧ failed (deleteGroup none cid db) = true
    ∧ failed (updateGroupName none cid nm db) = true
    ∧ failed (updateGroupImage none cid img db) = true
    ∧ failed (addGroupMembers none cid mids db) = true
    ∧ failed (removeGroupMember none cid mid db) = true
    ∧ failed (requestsGetAll none db) = true
    ∧ failed (requestsCreate none em db) = true
    ∧ failed (requestsCreateByUsername none un db) = true
    ∧ failed (requestsAccept none rid db) = true
    ∧ failed (requestsDeny none rid db) = true
    ∧ conversationsGet none db = Except.ok []
    ∧ isGroupCreator none cid db = Except.ok false := by
  exact ⟨rfl, rfl, rfl, rfl, rfl, rfl, rfl, rfl, rfl, rfl, rfl, rfl, rfl, rfl, rfl⟩

/-- C7: whoever the caller is, a removeGroupMember call whose target
is the stored creator of the group ends in an error (the generic
failure the catch wrapper rethrows), so no membership row is deleted:
an erroring transaction writes nothing. -/
theorem removeGroupMember_creator_target (auth : Option Identity) (db : DB)
    (cid t : Nat) (conv : Conversation)
    (hconv : db.conversations.find? (fun c => c.id == cid) = some conv)
    (hgrp : conv.isGroup = true)
    (hcr : conv.creatorId = some t) :
    removeGroupMember auth cid t db
      = Except.error (JsError.convex "Failed to remove member from group") := by
  rcases auth with _ | idn
  · rfl
  · rcases hu : getUserByClerkId db idn.subject with _ | u
    · simp [removeGroupMember, wrapFail, hu]
    · by_cases hme : u.id = t
      · subst hme
        rcases hm : db.users.find? (fun x => x.id == u.id) with _ | m
        · simp [removeGroupMember, wrapFail, hu, hconv, hgrp, hcr, hm]
        · have hmid : m.id = u.id := by
            have := List.find?_some hm
            simpa [beq_iff_eq] using this
          simp [removeGroupMember, wrapFail, hu, hconv, hgrp, hcr, hm, hmid]
      · have hme' : ¬ (t = u.id) := fun h => hme h.symm
        simp [removeGroupMember, wrapFail, hu, hconv, hgrp, hcr, hme']

/-- C7 (witness): in the sample two-member group, the non-creator bob
targeting the creator alice fails with the generic failure. -/
theorem removeGroupMember_creator_target_witness :
    removeGroupMember (some idnB) 2 0 dbGroupAB
      = Except.error (JsError.convex "Failed to remove member from group") :=
  removeGroupMember_creator_target (some idnB) dbGroupAB 2 0
    { id := 2, isGroup := true, name := some "g", creatorId := some 0 }
    (by decide) (by decide) (by decide)

/-- C9 (counterexample): when the non-creator bob renames the sample
group, the call fails, but the tagged error the caller receives is the
generic message of the catch wrapper, not a message of the form
starting with the words Only the group creator can. -/
theorem updateGroupName_msg_counterexample :
    updateGroupName (some idnB) 2 "x" dbGroupAB
      = Except.error (JsError.convex "Failed to update group name")
    ∧ ¬ ∃ rest : String,
        "Failed to update group name" = "Only the group creator can " ++ rest := by
  constructor
  · rfl
  · rintro ⟨rest, h⟩
    obtain ⟨rd⟩ := rest
    have hd := congrArg String.data h
    simp [String.data] at hd

/-- C9 (amended): updateGroupName and updateGroupImage apply the
change exactly when the caller is the stored creator; for any other
caller the internal creator check throws an error of the form Only the
group creator can, which the catch wrapper replaces, so the call fails
with the generic tagged failure for the operation and, the transaction
being rolled back, the conversation is unchanged. -/
theorem updateGroup_creator_only (auth : Option Identity) (db : DB) (cid : Nat)
    (idn : Identity) (u : User) (conv : Conversation) (nm img : String)
    (hauth : auth = some idn)
    (hu : getUserByClerkId db idn.subject = some u)
    (hconv : db.conversations.find? (fun c => c.id == cid) = some conv)
    (hgrp : conv.isGroup = true) :
    (conv.creatorId ≠ some u.id →
      updateGroupName auth cid nm db = Except.error (JsError.convex "Failed to update group name")
      ∧ updateGroupImage auth cid img db = Except.error (JsError.convex "Failed to update group image"))
    ∧ (conv.creatorId = some u.id →
      updateGroupName auth cid nm db
        = Except.ok (true, db.patchConversation cid (fun c => { c with name := some nm }))
      ∧ updateGroupImage auth cid img db
        = Except.ok (true, db.patchConversation cid (fun c => { c with imageUrl := some img }))) := by
  subst hauth
  constructor
  · intro hne
    constructor
    · simp [updateGroupName, wrapFail, hu, hconv, hgrp, hne]
    · simp [updateGroupImage, wrapFail, hu, hconv, hgrp, hne]
  · intro he
    constructor
    · simp [updateGroupName, wrapFail, hu, hconv, hgrp, he, pure, Except.pure]
    · simp [updateGroupImage, wrapFail, hu, hconv, hgrp, he, pure, Except.pure]

/-- C9 (witness): in the sample group, the non-creator bob fails to
rename or re-image the group, with the generic tagged failures. -/
theorem updateGroup_creator_only_witness :
    updateGroupName (some idnB) 2 "nm" dbGroupAB
      = Except.error (JsError.convex "Failed to update group name")
    ∧ updateGroupImage (some idnB) 2 "im" dbGroupAB
      = Except.error (JsError.convex "Failed to update group image") :=
  (updateGroup_creator_only (some idnB) dbGroupAB 2 idnB userB
    { id := 2, isGroup := true, name := some "g", creatorId := some 0 } "nm" "im"
    rfl (by decide) (by decide) (by decide)).1 (by decide)

/-- C1: when the receiver accepts a pending request, the new state has
exactly one friendship row for the unordered pair of sender and
receiver, the conversation table is extended by exactly one new direct
conversation, that conversation has exactly two membership rows, one
for the receiver and one for the sender, and no row with the request's
id remains. -/
theorem accept_spec (auth : Option Identity) (db : DB) (idn : Identity) (B : User) (req : Request)
    (hauth : auth = some idn)
    (hB : getUserByClerkId db idn.subject = some B)
    (hreq : db.requests.find? (fun r => r.id == req.id) = some req)
    (hrecv : req.receiverId = B.id)
    (hwf : db.WF)
    (hnofr : ∀ f ∈ db.friendships, friendshipForPair f req.senderId B.id = false) :
    ∃ db' : DB, requestsAccept auth req.id db = Except.ok (true, db')
      ∧ (db'.friendships.filter (fun f => friendshipForPair f req.senderId B.id)).length = 1
      ∧ db'.conversations = db.conversations ++ [{ id := db.nextId, isGroup := false }]
      ∧ ((db'.conversationMembers.filter (fun m => m.conversationId == db.nextId)).map
            (fun m => m.memberId)) = [B.id, req.senderId]
      ∧ (∀ r ∈ db'.requests, r.id ≠ req.id) := by
  subst hauth
  have hrun : requestsAccept (some idn) req.id db = Except.ok (true,
      { users := db.users,
        conversations := db.conversations ++ [{ id := db.nextId, isGroup := false }],
        conversationMembers := db.conversationMembers ++
          [{ id := db.nextId + 2, conversationId := db.nextId, memberId := B.id },
           { id := db.nextId + 3, conversationId := db.nextId, memberId := req.senderId }],
        messages := db.messages,
        requests := db.requests.filter (fun r => r.id != req.id),
        friendships := db.friendships ++
          [{ id := db.nextId + 1, userId1 := B.id, userId2 := req.senderId, status := "accepted" }],
        nextId := db.nextId + 4 }) := by
    simp [requestsAccept, hB, hreq, hrecv, DB.addConversation, DB.addFriendship,
      DB.addMember, DB.deleteRequest]
  refine ⟨_, hrun, ?_, ?_, ?_, ?_⟩
  · rw [List.filter_append]
    rw [List.filter_eq_nil_iff.mpr (by intro f hf; simp [hnofr f hf])]
    simp [friendshipForPair]
  · rfl
  · obtain ⟨-, -, hwfM, -⟩ := hwf
    rw [List.filter_append]
    rw [List.filter_eq_nil_iff.mpr
      (by intro m hm; have := (hwfM m hm).2.1; simp; omega)]
    simp
  · intro r hr
    simp only [List.mem_filter] at hr
    simpa using hr.2


/-- C1 (witness): accepting the sample pending request from alice to
bob as bob. -/
theorem accept_spec_witness :
    ∃ db' : DB, requestsAccept (some idnB) 2 dbRequest = Except.ok (true, db')
      ∧ (db'.friendships.filter (fun f => friendshipForPair f 0 1)).length = 1
      ∧ db'.conversations = dbRequest.conversations ++ [{ id := 3, isGroup := false }]
      ∧ ((db'.conversationMembers.filter (fun m => m.conversationId == 3)).map
            (fun m => m.memberId)) = [1, 0]
      ∧ (∀ r ∈ db'.requests, r.id ≠ 2) :=
  accept_spec (some idnB) dbRequest idnB userB
    { id := 2, senderId := 0, receiverId := 1, status := "pending" }
    rfl (by decide) (by decide) (by decide) (by decide) (by decide)

/-- Folding membership deletions over a list of ids removes exactly
the rows whose id is listed. -/
theorem foldl_deleteMember_members (ids : List Nat) (db : DB) :
    (ids.foldl DB.deleteMember db).conversationMembers
      = db.conversationMembers.filter (fun m => !ids.contains m.id) := by
  induction ids generalizing db with
  | nil => simp
  | cons i rest ih =>
    rw [List.foldl_cons, ih]
    simp only [DB.deleteMember, List.filter_filter]
    apply List.filter_congr
    intro m _
    by_cases h1 : m.id = i <;> by_cases h2 : m.id ∈ rest <;>
      simp [List.contains_cons, h1, h2]

/-- Membership deletions touch no other table. -/
theorem foldl_deleteMember_rest (ids : List Nat) (db : DB) :
    (ids.foldl DB.deleteMember db).users = db.users
    ∧ (ids.foldl DB.deleteMember db).conversations = db.conversations
    ∧ (ids.foldl DB.deleteMember db).messages = db.messages := by
  induction ids generalizing db with
  | nil => exact ⟨rfl, rfl, rfl⟩
  | cons i rest ih => simpa [DB.deleteMember] using ih (db.deleteMember i)

/-- Folding message deletions over a list of ids removes exactly the
rows whose id is listed. -/
theorem foldl_deleteMessage_messages (ids : List Nat) (db : DB) :
    (ids.foldl DB.deleteMessage db).messages
      = db.messages.filter (fun m => !ids.contains m.id) := by
  induction ids generalizing db with
  | nil => simp
  | cons i rest ih =>
    rw [List.foldl_cons, ih]
    simp only [DB.deleteMessage, List.filter_filter]
    apply List.filter_congr
    intro m _
    by_cases h1 : m.id = i <;> by_cases h2 : m.id ∈ rest <;>
      simp [List.contains_cons, h1, h2]

/-- Message deletions touch no other table. -/
theorem foldl_deleteMessage_rest (ids : List Nat) (db : DB) :
    (ids.foldl DB.deleteMessage db).users = db.users
    ∧ (ids.foldl DB.deleteMessage db).conversations = db.conversations
    ∧ (ids.foldl DB.deleteMessage db).conversationMembers = db.conversationMembers := by
  induction ids generalizing db with
  | nil => exact ⟨rfl, rfl, rfl⟩
  | cons i rest ih => simpa [DB.deleteMessage] using ih (db.deleteMessage i)

/-- The cascade of deleteGroupHandler: afterwards no conversation row
with the group's id, no membership row of the group and no message row
of the group remains. -/
theorem deleteGroupHandler_spec (db : DB) (cid : Nat) :
    (∀ c ∈ (deleteGroupHandler db cid).conversations, c.id ≠ cid)
    ∧ (∀ m ∈ (deleteGroupHandler db cid).conversationMembers, m.conversationId ≠ cid)
    ∧ (∀ x ∈ (deleteGroupHandler db cid).messages, x.conversationId ≠ cid) := by
  unfold deleteGroupHandler
  refine ⟨?_, ?_, ?_⟩
  · intro c hc
    simp only [DB.deleteConversation, List.mem_filter] at hc
    simpa using hc.2
  · intro m hm
    simp only [DB.deleteConversation] at hm
    rw [(foldl_deleteMessage_rest _ _).2.2, foldl_deleteMember_members] at hm
    intro hcontra
    rw [List.mem_filter] at hm
    obtain ⟨hm1, hm2⟩ := hm
    have hnotin : m.id ∉ (db.conversationMembers.filter
        (fun m => m.conversationId == cid)).map (fun m => m.id) := by
      simpa [List.contains] using hm2
    exact hnotin (List.mem_map_of_mem _ (List.mem_filter.mpr ⟨hm1, by simp [hcontra]⟩))
  · intro x hx
    simp only [DB.deleteConversation] at hx
    rw [foldl_deleteMessage_messages] at hx
    intro hcontra
    rw [List.mem_filter] at hx
    obtain ⟨hx1, hx2⟩ := hx
    rw [(foldl_deleteMember_rest _ _).2.2] at hx1
    have hnotin : x.id ∉ ((List.foldl DB.deleteMember db
        ((db.conversationMembers.filter (fun m => m.conversationId == cid)).map
          (fun m => m.id))).messages.filter (fun y => y.conversationId == cid)).map
          (fun y => y.id) := by
      simpa [List.contains] using hx2
    apply hnotin
    apply List.mem_map_of_mem
    rw [(foldl_deleteMember_rest _ _).2.2]
    exact List.mem_filter.mpr ⟨hx1, by simp [hcontra]⟩

/-- C4: a creator leaving a group: when the creator is the sole
member, the conversation and all its membership and message rows are
deleted; when other members remain, creatorId is handed to the first
remaining membership row, whose member still has a membership row in
the conversation afterwards, so creatorId never points to a user
without a membership row there. -/
theorem leaveGroup_creator (auth : Option Identity) (db : DB) (cid : Nat)
    (idn : Identity) (u : User) (conv : Conversation) (mem : ConversationMember)
    (hauth : auth = some idn)
    (hu : getUserByClerkId db idn.subject = some u)
    (hconv : db.conversations.find? (fun c => c.id == cid) = some conv)
    (hgrp : conv.isGroup = true)
    (hmem : db.conversationMembers.filter
      (fun m => m.memberId == u.id && m.conversationId == cid) = [mem])
    (hcr : conv.creatorId = some u.id)
    (hwf : db.WF) :
    (db.conversationMembers.filter
        (fun m => m.conversationId == cid && m.memberId != u.id) = [] →
      ∃ db', leaveGroup auth cid db = Except.ok (true, db')
        ∧ (∀ c ∈ db'.conversations, c.id ≠ cid)
        ∧ (∀ m ∈ db'.conversationMembers, m.conversationId ≠ cid)
        ∧ (∀ x ∈ db'.messages, x.conversationId ≠ cid))
    ∧ (∀ o rest, db.conversationMembers.filter
        (fun m => m.conversationId == cid && m.memberId != u.id) = o :: rest →
      ∃ db', leaveGroup auth cid db = Except.ok (true, db')
        ∧ (∃ c ∈ db'.conversations, c.id = cid ∧ c.creatorId = some o.memberId)
        ∧ (∀ c ∈ db'.conversations, c.id = cid → c.creatorId = some o.memberId)
        ∧ (∃ m ∈ db'.conversationMembers, m.conversationId = cid ∧ m.memberId = o.memberId)) := by
  subst hauth
  have hcid : conv.id = cid := by
    have := List.find?_some hconv
    simpa [beq_iff_eq] using this
  have hmem_in : mem ∈ db.conversationMembers.filter
      (fun m => m.memberId == u.id && m.conversationId == cid) := by
    rw [hmem]
    exact List.mem_singleton_self mem
  rw [List.mem_filter] at hmem_in
  obtain ⟨hmem_db, hmem_p⟩ := hmem_in
  have hmem_uid : mem.memberId = u.id := by
    have := (Bool.and_eq_true _ _ |>.mp hmem_p).1
    simpa [beq_iff_eq] using this
  constructor
  · intro ho
    have hrun : leaveGroup (some idn) cid db
        = Except.ok (true, deleteGroupHandler db cid) := by
      simp [leaveGroup, wrapFail, hu, hconv, hgrp, hmem, uniqueDoc, hcr, ho]
    exact ⟨_, hrun, (deleteGroupHandler_spec db cid).1,
      (deleteGroupHandler_spec db cid).2.1, (deleteGroupHandler_spec db cid).2.2⟩
  · intro o rest ho
    have hrun : leaveGroup (some idn) cid db
        = Except.ok (true, (db.patchConversation cid
            (fun c => { c with creatorId := some o.memberId })).deleteMember mem.id) := by
      simp [leaveGroup, wrapFail, hu, hconv, hgrp, hmem, uniqueDoc, hcr, ho]
    have ho_in : o ∈ db.conversationMembers.filter
        (fun m => m.conversationId == cid && m.memberId != u.id) := by
      rw [ho]
      exact List.mem_cons_self o rest
    rw [List.mem_filter] at ho_in
    obtain ⟨ho_db, ho_p⟩ := ho_in
    obtain ⟨ho_cid, ho_ne⟩ := Bool.and_eq_true _ _ |>.mp ho_p
    have ho_cid' : o.conversationId = cid := by simpa [beq_iff_eq] using ho_cid
    have ho_ne' : o.memberId ≠ u.id := by simpa using ho_ne
    have hone : o ≠ mem := fun h => ho_ne' (h ▸ hmem_uid)
    obtain ⟨-, -, -, -, -, -, -, -, hnodupM, -⟩ := hwf
    have hido : o.id ≠ mem.id := fun h =>
      hone (List.inj_on_of_nodup_map hnodupM ho_db hmem_db h)
    refine ⟨_, hrun, ?_, ?_, ?_⟩
    · refine ⟨{ conv with creatorId := some o.memberId }, ?_, by simpa using hcid, rfl⟩
      simp only [DB.deleteMember, DB.patchConversation]
      have : ({ conv with creatorId := some o.memberId } : Conversation)
          = (fun c => if c.id == cid then { c with creatorId := some o.memberId } else c) conv := by
        simp [hcid]
      rw [this]
      exact List.mem_map_of_mem _ (List.mem_of_find?_eq_some hconv)
    · intro c hc hcc
      simp only [DB.deleteMember, DB.patchConversation] at hc
      obtain ⟨c0, hc0, rfl⟩ := List.mem_map.mp hc
      by_cases h0 : c0.id = cid
      · simp [h0]
      · exfalso
        rw [if_neg (by simp [h0])] at hcc
        exact h0 hcc
    · refine ⟨o, ?_, ho_cid', rfl⟩
      simp only [DB.deleteMember, DB.patchConversation, List.mem_filter]
      exact ⟨ho_db, by simpa using hido⟩


/-- C4 (witness): alice, sole member and creator of the sample group,
leaves; the group, its memberships and its messages are gone. -/
theorem leaveGroup_creator_witness :
    ∃ db', leaveGroup (some idnA) 1 dbGroupSole = Except.ok (true, db')
      ∧ (∀ c ∈ db'.conversations, c.id ≠ 1)
      ∧ (∀ m ∈ db'.conversationMembers, m.conversationId ≠ 1)
      ∧ (∀ x ∈ db'.messages, x.conversationId ≠ 1) :=
  (leaveGroup_creator (some idnA) dbGroupSole 1 idnA userA
    { id := 1, isGroup := true, name := some "g", creatorId := some 0 }
    { id := 2, conversationId := 1, memberId := 0 }
    rfl (by decide) (by decide) (by decide) (by decide) (by decide) (by decide)).1 (by decide)

/-- The insertion loop of addGroupMembers inserts one membership row
of the conversation per eligible id, in order, increments the counter
once per insertion, and leaves the user table alone. -/
theorem addMembersLoop_spec (cid : Nat) (preIds : List Nat) (mids : List Nat) :
    ∀ (db : DB) (n : Nat),
      (addMembersLoop cid preIds mids (db, n)).1.conversationMembers.map memberPair
          = db.conversationMembers.map memberPair
            ++ (eligibleIds db.users preIds mids).map (fun mid => (cid, mid))
      ∧ (addMembersLoop cid preIds mids (db, n)).2
          = n + (eligibleIds db.users preIds mids).length
      ∧ (addMembersLoop cid preIds mids (db, n)).1.users = db.users := by
  induction mids with
  | nil => intro db n; simp [addMembersLoop, eligibleIds]
  | cons mid rest ih =>
    intro db n
    rcases hf : db.users.find? (fun u => u.id == mid) with _ | member
    · have helig : eligibleIds db.users preIds (mid :: rest)
          = eligibleIds db.users preIds rest := by
        simp [eligibleIds, List.filter_cons, hf]
      rw [helig]
      simpa [addMembersLoop, hf] using ih db n
    · have hmid : member.id = mid := by
        have := List.find?_some hf
        simpa [beq_iff_eq] using this
      by_cases hc : mid ∈ preIds
      · have helig : eligibleIds db.users preIds (mid :: rest)
            = eligibleIds db.users preIds rest := by
          simp [eligibleIds, List.filter_cons, hf, hc]
        rw [helig]
        simpa [addMembersLoop, hf, hmid, hc] using ih db n
      · have helig : eligibleIds db.users preIds (mid :: rest)
            = mid :: eligibleIds db.users preIds rest := by
          simp [eligibleIds, List.filter_cons, hf, hc]
        rw [helig]
        have hstep : addMembersLoop cid preIds (mid :: rest) (db, n)
            = addMembersLoop cid preIds rest
                (db.addMember { id := db.nextId, conversationId := cid, memberId := member.id },
                 n + 1) := by
          simp [addMembersLoop, hf, hmid, hc]
        rw [hstep]
        obtain ⟨ih1, ih2, ih3⟩ := ih
          (db.addMember { id := db.nextId, conversationId := cid, memberId := member.id }) (n + 1)
        refine ⟨?_, ?_, ?_⟩
        · rw [ih1]
          simp [DB.addMember, memberPair, hmid]
        · rw [ih2]
          simp [DB.addMember]
          omega
        · rw [ih3]
          rfl

/-- C8: a creator's addGroupMembers call inserts a membership row
exactly for the requested ids that resolve to an existing user and are
not in the membership list computed before the loop, in request order,
and the answered addedCount equals the number of rows inserted. -/
theorem addGroupMembers_spec (auth : Option Identity) (db : DB) (cid : Nat) (mids : List Nat)
    (idn : Identity) (u : User) (conv : Conversation)
    (hauth : auth = some idn)
    (hu : getUserByClerkId db idn.subject = some u)
    (hconv : db.conversations.find? (fun c => c.id == cid) = some conv)
    (hgrp : conv.isGroup = true)
    (hcr : conv.creatorId = some u.id) :
    ∃ db' k, addGroupMembers auth cid mids db = Except.ok ((true, k), db')
      ∧ db'.conversationMembers.map memberPair
          = db.conversationMembers.map memberPair
            ++ (eligibleIds db.users
                ((db.conversationMembers.filter (fun m => m.conversationId == cid)).map
                  (fun m => m.memberId)) mids).map (fun mid => (cid, mid))
      ∧ k = (eligibleIds db.users
                ((db.conversationMembers.filter (fun m => m.conversationId == cid)).map
                  (fun m => m.memberId)) mids).length
      ∧ ∀ mid ∈ eligibleIds db.users
                ((db.conversationMembers.filter (fun m => m.conversationId == cid)).map
                  (fun m => m.memberId)) mids,
          (∃ us ∈ db.users, us.id = mid)
          ∧ mid ∉ (db.conversationMembers.filter (fun m => m.conversationId == cid)).map
                (fun m => m.memberId) := by
  subst hauth
  have hrun : addGroupMembers (some idn) cid mids db
      = Except.ok ((true, (addMembersLoop cid
          ((db.conversationMembers.filter (fun m => m.conversationId == cid)).map
            (fun m => m.memberId)) mids (db, 0)).2),
        (addMembersLoop cid
          ((db.conversationMembers.filter (fun m => m.conversationId == cid)).map
            (fun m => m.memberId)) mids (db, 0)).1) := by
    simp [addGroupMembers, wrapFail, hu, hconv, hgrp, hcr]
  obtain ⟨h1, h2, h3⟩ := addMembersLoop_spec cid
    ((db.conversationMembers.filter (fun m => m.conversationId == cid)).map
      (fun m => m.memberId)) mids db 0
  refine ⟨_, _, hrun, h1, by simpa using h2, ?_⟩
  intro mid hmid
  rw [eligibleIds, List.mem_filter] at hmid
  obtain ⟨-, hp⟩ := hmid
  obtain ⟨hs, hnotin⟩ := Bool.and_eq_true _ _ |>.mp hp
  constructor
  · rcases hfind : db.users.find? (fun us => us.id == mid) with _ | us
    · rw [hfind] at hs
      cases hs
    · have := List.find?_some hfind
      exact ⟨us, List.mem_of_find?_eq_some hfind, by simpa [beq_iff_eq] using this⟩
  · simpa using hnotin

/-- C8 (witness): alice adds carol (added), bob (already a member,
skipped) and an unknown id (skipped) to the sample group. -/
theorem addGroupMembers_spec_witness :
    ∃ db' k, addGroupMembers (some idnA) 2 [5, 1, 9] dbGroupAB = Except.ok ((true, k), db')
      ∧ db'.conversationMembers.map memberPair
          = dbGroupAB.conversationMembers.map memberPair
            ++ (eligibleIds dbGroupAB.users
                ((dbGroupAB.conversationMembers.filter (fun m => m.conversationId == 2)).map
                  (fun m => m.memberId)) [5, 1, 9]).map (fun mid => (2, mid))
      ∧ k = (eligibleIds dbGroupAB.users
                ((dbGroupAB.conversationMembers.filter (fun m => m.conversationId == 2)).map
                  (fun m => m.memberId)) [5, 1, 9]).length
      ∧ ∀ mid ∈ eligibleIds dbGroupAB.users
                ((dbGroupAB.conversationMembers.filter (fun m => m.conversationId == 2)).map
                  (fun m => m.memberId)) [5, 1, 9],
          (∃ us ∈ dbGroupAB.users, us.id = mid)
          ∧ mid ∉ (dbGroupAB.conversationMembers.filter (fun m => m.conversationId == 2)).map
                (fun m => m.memberId) :=
  addGroupMembers_spec (some idnA) dbGroupAB 2 [5, 1, 9] idnA userA
    { id := 2, isGroup := true, name := some "g", creatorId := some 0 }
    rfl (by decide) (by decide) (by decide) (by decide)

/-- C6: the receiver scan of requests.createByUsername matches a
stored username equal to the input case-insensitively, or equal to the
input with a decorative crown or shield suffix appended; concretely,
the input alice matches a stored alice with a crown suffix and does
not match the different username alice2; on the sample states, the
mutation resolves the crowned user by scanning all users and creates
the request to them, and fails to resolve a receiver when only alice2
exists. -/
theorem createByUsername_matching :
    (∀ input stored : JStr, jsToLower stored = jsToLower input →
        matchesUsername input stored = true)
    ∧ (∀ input stored : JStr,
        jsToLower stored = jsToLower input ++ [crownChar]
        ∨ jsToLower stored = jsToLower input ++ [shieldChar]
        ∨ jsToLower stored = jsToLower input ++ [shieldChar, vs16]
        → matchesUsername input stored = true)
    ∧ matchesUsername "alice".data "alice👑".data = true
    ∧ matchesUsername "alice".data "alice2".data = false
    ∧ requestsCreateByUsername (some idnC) "alice".data dbFuzzy
        = Except.ok (9, dbFuzzy.addRequest
            { id := 9, senderId := 5, receiverId := 7, status := "pending" })
    ∧ requestsCreateByUsername (some idnC) "alice".data dbFuzzy2
        = Except.error (JsError.convex "User with this username could not be found") := by
  refine ⟨?_, ?_, by decide, by decide, rfl, rfl⟩
  · intro input stored h
    simp [matchesUsername, h]
  · intro input stored h
    rcases h with h | h | h <;> simp [matchesUsername, h]


/-- C6 (witness): a stored username equal to the input up to case
matches. -/
theorem createByUsername_matching_witness :
    matchesUsername "x".data "X".data = true :=
  createByUsername_matching.1 "x".data "X".data (by decide)

/-- C5: with a pending request already present between the caller and
the targeted receiver, requests.create and requests.createByUsername
fail: with the tagged error Request already sent when the existing
request runs in the same direction (this check comes first), and with
the tagged error This user has already sent you a request when only
the opposite direction exists; the transaction being rolled back on a
throw, no request row is inserted. -/
theorem duplicate_request_guard (db : DB) (idn : Identity) (A B : User) (email uname : JStr)
    (hA : getUserByClerkId db idn.subject = some A) :
    (((jsTrim email).isEmpty = false) →
     email ≠ idn.email →
     db.users.filter (fun x => x.email == email) = [B] →
     (∀ r, db.requests.filter (fun x => x.senderId == A.id && x.receiverId == B.id) = [r] →
        requestsCreate (some idn) email db
          = Except.error (JsError.convex "Request already sent"))
     ∧ (db.requests.filter (fun x => x.senderId == A.id && x.receiverId == B.id) = [] →
        ∀ r, db.requests.filter (fun x => x.senderId == B.id && x.receiverId == A.id) = [r] →
        requestsCreate (some idn) email db
          = Except.error (JsError.convex "This user has already sent you a request")))
    ∧ (((jsTrim uname).isEmpty = false) →
       usernameOk uname = true →
       jsToLower A.username ≠ jsToLower uname →
       getCleanUsername A.username ≠ jsToLower uname →
       db.users.find? (fun x => matchesUsername uname x.username) = some B →
       (∀ r, db.requests.filter (fun x => x.senderId == A.id && x.receiverId == B.id) = [r] →
          requestsCreateByUsername (some idn) uname db
            = Except.error (JsError.convex "Request already sent"))
       ∧ (db.requests.filter (fun x => x.senderId == A.id && x.receiverId == B.id) = [] →
          ∀ r, db.requests.filter (fun x => x.senderId == B.id && x.receiverId == A.id) = [r] →
          requestsCreateByUsername (some idn) uname db
            = Except.error (JsError.convex "This user has already sent you a request"))) := by
  constructor
  · intro hne hself hrecv
    constructor
    · intro r hsent
      simp [requestsCreate, hne, hself, hA, hrecv, hsent, uniqueDoc]
    · intro hsent r hrecvd
      simp [requestsCreate, hne, hself, hA, hrecv, hsent, hrecvd, uniqueDoc]
  · intro hne hok hself1 hself2 hfind
    constructor
    · intro r hsent
      simp [requestsCreateByUsername, hne, hok, hself1, hself2, hA, hfind, hsent, uniqueDoc]
    · intro hsent r hrecvd
      simp [requestsCreateByUsername, hne, hok, hself1, hself2, hA, hfind, hsent, hrecvd, uniqueDoc]


/-- C5 (witness): alice, who already has a pending request to bob,
sends again by email and fails with Request already sent. -/
theorem duplicate_request_guard_witness :
    requestsCreate (some idnA) "b@x".data dbRequest
      = Except.error (JsError.convex "Request already sent") :=
  ((duplicate_request_guard dbRequest idnA userA userB "b@x".data "bob".data
      (by decide)).1 (by decide) (by decide) (by decide)).1
    { id := 2, senderId := 0, receiverId := 1, status := "pending" } (by decide)

/-- The sort comparison is transitive. -/
theorem tsLe_trans : ∀ a b c : ConvWithTs, tsLe a b → tsLe b c → tsLe a c := by
  intro a b c h1 h2
  simp only [tsLe, decide_eq_true_eq] at *
  omega

/-- The sort comparison is total. -/
theorem tsLe_total : ∀ a b : ConvWithTs, tsLe a b || tsLe b a := by
  intro a b
  simp only [tsLe]
  rcases Nat.le_total b.lastMessageTimestamp a.lastMessageTimestamp with h | h <;> simp [h]

/-- Stability of the sort: restricted to the rows of any one
timestamp, the sorted list is exactly the original list. -/
theorem mergeSort_filter_ts (l : List ConvWithTs) (t : Nat) :
    (l.mergeSort tsLe).filter (fun c => c.lastMessageTimestamp == t)
      = l.filter (fun c => c.lastMessageTimestamp == t) := by
  have hpw : (l.filter (fun c => c.lastMessageTimestamp == t)).Pairwise
      (fun a b => tsLe a b) := by
    apply List.pairwise_of_forall_mem_list
    intro a ha b hb
    rw [List.mem_filter] at ha hb
    have ha2 : a.lastMessageTimestamp = t := by simpa using ha.2
    have hb2 : b.lastMessageTimestamp = t := by simpa using hb.2
    simp [tsLe, ha2, hb2]
  have h1 : List.Sublist (l.filter (fun c => c.lastMessageTimestamp == t)) (l.mergeSort tsLe) :=
    List.sublist_mergeSort tsLe_trans tsLe_total hpw (List.filter_sublist l)
  have h2 : List.Perm ((l.mergeSort tsLe).filter (fun c => c.lastMessageTimestamp == t))
      (l.filter (fun c => c.lastMessageTimestamp == t)) :=
    (List.mergeSort_perm l tsLe).filter _
  have h3 : List.Sublist (l.filter (fun c => c.lastMessageTimestamp == t))
      ((l.mergeSort tsLe).filter (fun c => c.lastMessageTimestamp == t)) := by
    have := h1.filter (fun c => c.lastMessageTimestamp == t)
    simpa [List.filter_filter] using this
  exact (h3.eq_of_length h2.length_eq.symm).symm

/-- Filtering on a key preserved by a partial map commutes with the
map. -/
theorem filterMap_key_filter {α β : Type} (f : α → Option β) (key : β → α)
    (hf : ∀ a b, f a = some b → key b = a) (p : α → Bool) (l : List α) :
    (l.filterMap f).filter (fun b => p (key b)) = (l.filter p).filterMap f := by
  induction l with
  | nil => rfl
  | cons a l ih =>
    rcases hfa : f a with _ | b
    · by_cases hpa : p a <;>
        simp [List.filterMap_cons, List.filter_cons, hfa, hpa, ih]
    · have hkey := hf a b hfa
      by_cases hpa : p a <;>
        simp [List.filterMap_cons, List.filter_cons, hfa, hkey, hpa, ih]

/-- The keys surviving a key-preserving partial map form a sublist of
the input. -/
theorem filterMap_key_sublist {α β : Type} (f : α → Option β) (key : β → α)
    (hf : ∀ a b, f a = some b → key b = a) (l : List α) :
    List.Sublist ((l.filterMap f).map key) l := by
  induction l with
  | nil => simp
  | cons a l ih =>
    rcases hfa : f a with _ | b
    · simp only [List.filterMap_cons, hfa]
      exact ih.cons a
    · simp only [List.filterMap_cons, hfa, List.map_cons]
      rw [hf a b hfa]
      exact ih.cons₂ a

/-- The details phase never changes which decorated conversation an
item is about. -/
theorem conversationDetails_conversation (db : DB) (uid : Nat) (cw : ConvWithTs)
    (d : ConversationDetails) (h : conversationDetails db uid cw = some d) :
    d.conversation = cw := by
  simp only [conversationDetails] at h
  split at h
  · cases h
    rfl
  · split at h
    · cases h
    · split at h
      · cases h
      · cases h
        rfl

/-- C2: conversations.get never errors, its result is sorted by
last-message timestamp descending (a conversation with no fetchable
last message counting as timestamp zero, as memberConversations
records), and ties are stable: restricted to any one timestamp, the
output lists conversations in the order of the pre-sort membership
scan. -/
theorem conversationsGet_sorted_stable (auth : Option Identity) (db : DB) :
    conversationsGet auth db = Except.ok (conversationsGetResult auth db)
    ∧ (conversationsGetResult auth db).Pairwise
        (fun a b => b.conversation.lastMessageTimestamp ≤ a.conversation.lastMessageTimestamp)
    ∧ ∀ t, List.Sublist
        (((conversationsGetResult auth db).filter
            (fun d => d.conversation.lastMessageTimestamp == t)).map (fun d => d.conversation))
        ((filteredConversationsOf auth db).filter (fun c => c.lastMessageTimestamp == t)) := by
  refine ⟨?_, ?_, ?_⟩
  · cases h : conversationsGetInner auth db <;>
      simp [conversationsGet, conversationsGetResult, h]
  · rcases auth with _ | idn
    · simp [conversationsGetResult, conversationsGet, conversationsGetInner]
    · rcases hu : getUserByClerkId db idn.subject with _ | u
      · simp [conversationsGetResult, conversationsGet, conversationsGetInner, hu]
      · have hres : conversationsGetResult (some idn) db
            = (sortedConversations db u.id).filterMap (conversationDetails db u.id) := by
          simp [conversationsGetResult, conversationsGet, conversationsGetInner, hu]
        have hkey : ∀ a d, conversationDetails db u.id a = some d → d.conversation = a :=
          fun a d h => conversationDetails_conversation db u.id a d h
        have hsub := filterMap_key_sublist (conversationDetails db u.id)
          (fun d => d.conversation) hkey (sortedConversations db u.id)
        have hsorted : (sortedConversations db u.id).Pairwise (fun a b => tsLe a b = true) :=
          List.sorted_mergeSort tsLe_trans tsLe_total (memberConversations db u.id)
        have hp2 := List.Pairwise.sublist hsub hsorted
        rw [List.pairwise_map] at hp2
        rw [hres]
        exact hp2.imp (fun h => by simpa [tsLe, decide_eq_true_eq] using h)
  · intro t
    rcases auth with _ | idn
    · simp [conversationsGetResult, conversationsGet, conversationsGetInner]
    · rcases hu : getUserByClerkId db idn.subject with _ | u
      · simp [conversationsGetResult, conversationsGet, conversationsGetInner, hu]
      · have hres : conversationsGetResult (some idn) db
            = (sortedConversations db u.id).filterMap (conversationDetails db u.id) := by
          simp [conversationsGetResult, conversationsGet, conversationsGetInner, hu]
        have hkey : ∀ a d, conversationDetails db u.id a = some d → d.conversation = a :=
          fun a d h => conversationDetails_conversation db u.id a d h
        have hfl : filteredConversationsOf (some idn) db = memberConversations db u.id := by
          simp [filteredConversationsOf, hu]
        rw [hres, hfl]
        have hcomm := filterMap_key_filter (conversationDetails db u.id)
          (fun d => d.conversation) hkey (fun c => c.lastMessageTimestamp == t)
          (sortedConversations db u.id)
        rw [hcomm]
        have hstable : (sortedConversations db u.id).filter
              (fun c => c.lastMessageTimestamp == t)
            = (memberConversations db u.id).filter (fun c => c.lastMessageTimestamp == t) :=
          mergeSort_filter_ts (memberConversations db u.id) t
        rw [← hstable]
        exact filterMap_key_sublist (conversationDetails db u.id)
          (fun d => d.conversation) hkey _

/-- C10 (witness): with no identity, isGroupCreator answers an
ordinary false on the sample state. -/
theorem isGroupCreator_total_spec_witness :
    isGroupCreator none 0 dbGroupAB = Except.ok false :=
  (isGroupCreator_total_spec none 0 dbGroupAB).2.1 rfl
